import Mathlib

/-!
# Verification of the CrystFEL prediction / integration / refinement / scaling core

Shallow embedding of the core routines of CrystFEL covered by the
specification: `predict-refine.c` (peak pairing, outlier cut, prediction
refinement), `geometry.c` (Ewald-sphere intersection and detector mapping),
`peaks.c` (aperture integration) and `scaling.c` (per-crystal scaling and
linear scale fit).

Machine doubles are modelled as rationals (`ℚ`) where the code's control
flow is pure arithmetic comparison, and as reals (`ℝ`) where square roots
appear.  External library calls (GSL's SVD solve and weighted fit,
transcendental excitation-error evaluation) are passed in as explicit
oracle parameters, so every control-flow decision made by the repository's
own code is represented faithfully.
-/

namespace CrystFEL

/-- `profile_cutoff = 0.005e9` from `geometry.c` (`find_intersections`). -/
def profileCutoff : ℚ := 5000000

/-- The additive constant `0.001e9` of the outlier transition bound,
`predict-refine.c` (`check_outlier_transition`). -/
def outlierBase : ℚ := 1000000

/-! ## Outlier transition cut (`predict-refine.c`, `cmpd2` / `check_outlier_transition`)

`check_outlier_transition` receives the accepted pairs, sorts them by
ascending excitation-error magnitude (`qsort` with `cmpd2`, which compares
`fabs(r_dev)`), and scans `i = 1 .. n-2` for the first position whose
extrapolated linear bound `0.001e9 + (|err[i]|/i)*j` stays below every later
`|err[j]|`.  Only the excitation errors matter to this function, so the
model works on the list of `r_dev` values. -/

/-- The comparison used by `cmpd2`: ascending magnitude of excitation error. -/
def absLe (a b : ℚ) : Prop := |a| ≤ |b|

instance : DecidableRel absLe := fun a b => by unfold absLe; infer_instance

/-- The `qsort(rps, n, sizeof, cmpd2)` call: sort by ascending `fabs(r_dev)`
(`qsort`'s algorithm is unspecified; any sort by the comparator is faithful). -/
def sortByAbs (l : List ℚ) : List ℚ := l.insertionSort absLe

/-- The linear bound `0.001e9 + grad*j` with `grad = fabs(r_dev(&rps[i]))/i`
(`check_outlier_transition`, inner loop). -/
def outlierBound (s : List ℚ) (i j : ℕ) : ℚ :=
  outlierBase + (|s.getD i 0| / (i : ℚ)) * (j : ℚ)

/-- The inner loop of `check_outlier_transition` for one `i`: it breaks at the
first `j ∈ (i, n)` with `|err[j]| < bound(j)`, and `i` is a transition iff the
loop runs to `j = n`, i.e. iff no later pair falls under the bound. -/
def transitionAt (s : List ℚ) (n i : ℕ) : Bool :=
  decide (∀ j ∈ List.range n, i < j → outlierBound s i j ≤ |s.getD j 0|)

/-- The outer loop of `check_outlier_transition`: scan `i` upward while
`i < n-1`, returning the first transition position, else `n`. -/
def scanOutlier (s : List ℚ) (n : ℕ) (i : ℕ) : ℕ :=
  if h : i < n - 1 then
    if transitionAt s n i then i else scanOutlier s n (i + 1)
  else n
termination_by n - 1 - i
decreasing_by omega

/-- `check_outlier_transition(rps, n, det)`: returns `n` unchanged for `n < 3`;
otherwise sorts by ascending error magnitude and scans from `i = 1`. -/
def check_outlier_transition (errs : List ℚ) : ℕ :=
  if errs.length < 3 then errs.length
  else scanOutlier (sortByAbs errs) errs.length 1

/-- The property scanned for, in the claim's words: position `i` in `1..n-2`
such that every later pair `j > i` satisfies `|err[j]| ≥ 0.001e9 + (|err[i]|/i)*j`. -/
def cotProp (s : List ℚ) (n i : ℕ) : Prop :=
  1 ≤ i ∧ i ≤ n - 2 ∧ ∀ j, i < j → j < n → outlierBound s i j ≤ |s.getD j 0|

theorem transitionAt_iff (s : List ℚ) (n i : ℕ) :
    transitionAt s n i = true ↔
      ∀ j, i < j → j < n → outlierBound s i j ≤ |s.getD j 0| := by
  simp only [transitionAt, decide_eq_true_eq, List.mem_range]
  exact ⟨fun h j hij hjn => h j hjn hij, fun h j hjn hij => h j hij hjn⟩

/-- `scanOutlier` either finds no transition in `[i, n-1)` and returns `n`, or
returns the first transition position at or after `i`. -/
theorem scanOutlier_cases (s : List ℚ) (n : ℕ) :
    ∀ d i, n - 1 - i = d →
      (scanOutlier s n i = n ∧
        ∀ k, i ≤ k → k < n - 1 → transitionAt s n k = false) ∨
      (i ≤ scanOutlier s n i ∧ scanOutlier s n i < n - 1 ∧
        transitionAt s n (scanOutlier s n i) = true ∧
        ∀ k, i ≤ k → k < scanOutlier s n i → transitionAt s n k = false) := by
  intro d
  induction d with
  | zero =>
    intro i hd
    have hi : ¬ i < n - 1 := by omega
    have hrw : scanOutlier s n i = n := by rw [scanOutlier]; simp [hi]
    left
    exact ⟨hrw, fun k hk hk' => absurd (lt_of_le_of_lt hk hk') hi⟩
  | succ d ih =>
    intro i hd
    have hi : i < n - 1 := by omega
    by_cases ht : transitionAt s n i = true
    · have hrw : scanOutlier s n i = i := by rw [scanOutlier]; simp [hi, ht]
      right
      rw [hrw]
      exact ⟨le_refl i, hi, ht,
             fun k hk hk' => absurd (lt_of_lt_of_le hk' hk) (lt_irrefl k)⟩
    · have ht' : transitionAt s n i = false := Bool.eq_false_iff.2 ht
      have hrw : scanOutlier s n i = scanOutlier s n (i + 1) := by
        rw [scanOutlier]; simp [hi, ht']
      rcases ih (i + 1) (by omega) with ⟨heq, hnone⟩ | ⟨hle, hlt, htr, hfirst⟩
      · left
        rw [hrw]
        refine ⟨heq, fun k hk hk' => ?_⟩
        rcases Nat.eq_or_lt_of_le hk with rfl | hik
        · exact ht'
        · exact hnone k hik hk'
      · right
        rw [hrw]
        refine ⟨le_trans (Nat.le_succ i) hle, hlt, htr, fun k hk hk' => ?_⟩
        rcases Nat.eq_or_lt_of_le hk with rfl | hik
        · exact ht'
        · exact hfirst k hik hk'

theorem cotProp_iff (s : List ℚ) (n i : ℕ) (hn : 3 ≤ n) :
    cotProp s n i ↔ (1 ≤ i ∧ i < n - 1 ∧ transitionAt s n i = true) := by
  unfold cotProp
  rw [transitionAt_iff]
  constructor
  · rintro ⟨h1, h2, h3⟩
    exact ⟨h1, by omega, h3⟩
  · rintro ⟨h1, h2, h3⟩
    exact ⟨h1, by omega, h3⟩

/-- C4: for `n ≥ 3` accepted pairs, the outlier cut sorts by ascending
excitation-error magnitude (`sortByAbs errs` is `absLe`-sorted and a
permutation of the input) and returns the smallest position `i` in `1..n-2`
such that every later pair `j > i` satisfies
`|err[j]| ≥ 0.001e9 + (|err[i]|/i)·j`; if no such position exists, or when
`n < 3`, it returns `n` (all pairs kept). -/
theorem claim_C4 (errs : List ℚ) :
    ((sortByAbs errs).Sorted absLe ∧ (sortByAbs errs).Perm errs) ∧
    (errs.length < 3 → check_outlier_transition errs = errs.length) ∧
    (3 ≤ errs.length →
      ((∃ i, cotProp (sortByAbs errs) errs.length i) →
          cotProp (sortByAbs errs) errs.length (check_outlier_transition errs) ∧
          ∀ i, cotProp (sortByAbs errs) errs.length i →
            check_outlier_transition errs ≤ i) ∧
      ((¬ ∃ i, cotProp (sortByAbs errs) errs.length i) →
          check_outlier_transition errs = errs.length)) := by
  have hTot : IsTotal ℚ absLe := ⟨fun a b => le_total |a| |b|⟩
  have hTrans : IsTrans ℚ absLe := ⟨fun a b c => le_trans⟩
  refine ⟨⟨List.sorted_insertionSort absLe errs, List.perm_insertionSort absLe errs⟩, ?_, ?_⟩
  · intro h
    unfold check_outlier_transition
    simp [h]
  · intro hn
    have hn' : ¬ errs.length < 3 := by omega
    have hcot : check_outlier_transition errs
        = scanOutlier (sortByAbs errs) errs.length 1 := by
      unfold check_outlier_transition
      simp [hn']
    rcases scanOutlier_cases (sortByAbs errs) errs.length (errs.length - 1 - 1) 1 rfl with
      ⟨heq, hnone⟩ | ⟨hle, hlt, htr, hfirst⟩
    · constructor
      · rintro ⟨i, hi⟩
        rcases (cotProp_iff _ _ i hn).1 hi with ⟨h1, h2, h3⟩
        exact absurd h3 (by simp [hnone i h1 h2])
      · intro _
        rw [hcot, heq]
    · constructor
      · intro _
        refine ⟨(cotProp_iff _ _ _ hn).2 ⟨by omega, by omega, by rw [hcot]; exact htr⟩,
                fun i hi => ?_⟩
        rcases (cotProp_iff _ _ i hn).1 hi with ⟨h1, h2, h3⟩
        by_contra hcon
        push_neg at hcon
        rw [hcot] at hcon
        exact absurd h3 (by simp [hfirst i h1 hcon])
      · intro hno
        exact absurd ⟨scanOutlier (sortByAbs errs) errs.length 1,
          (cotProp_iff _ _ _ hn).2 ⟨by omega, by omega, htr⟩⟩ hno

/-- Witness for C4 at the concrete input `[0, 0, 10^7]`, where the
transition is found at position 1. -/
theorem claim_C4_witness :
    cotProp (sortByAbs [0, 0, 10000000]) 3
        (check_outlier_transition [0, 0, 10000000]) ∧
    check_outlier_transition [0, 0, 10000000] ≤ 1 := by
  have hcot1 : cotProp (sortByAbs [0, 0, 10000000]) 3 1 := by
    unfold cotProp
    refine ⟨le_refl 1, by norm_num, fun j h1 h3 => ?_⟩
    have hj : j = 2 := by omega
    subst hj
    have h : sortByAbs [0, 0, 10000000] = [0, 0, 10000000] := by
      norm_num [sortByAbs, List.insertionSort, List.orderedInsert, absLe]
    rw [outlierBound, h]
    norm_num [outlierBase]
  have h := (claim_C4 [0, 0, 10000000]).2.2 (by norm_num)
  rcases h.1 ⟨1, hcot1⟩ with ⟨hc, hmin⟩
  exact ⟨hc, hmin 1 hcot1⟩

/-! ## Detector mapping (`geometry.c`, `locate_peak`)

`locate_peak` projects a reciprocal point `(x,y,z)` through each panel's
perspective transform and accepts exactly-one-panel hits: a second hit
returns `-1` immediately, no hit leaves `found = -1`. -/

/-- One detector panel of the old-style geometry model (`struct panel` as used
by `locate_peak`): camera length, resolution, beam centre and bounds. -/
structure Panel where
  clen : ℚ
  res : ℚ
  cx : ℚ
  cy : ℚ
  min_x : ℚ
  max_x : ℚ
  min_y : ℚ
  max_y : ℚ

/-- The projection of `locate_peak`'s loop body: `xd = cl·x/(k+z)` scaled to
pixels and shifted by the central beam.  (`k+z = 0` cannot occur for physical
beams; ℚ division by zero yields `0`, and the bounds test below is applied to
whatever value results, exactly as the C code applies it to the IEEE result.) -/
def projectPanel (pl : Panel) (x y z k : ℚ) : ℚ × ℚ :=
  let den := k + z
  (pl.clen * x / den * pl.res + pl.cx, pl.clen * y / den * pl.res + pl.cy)

/-- The four `continue` tests of `locate_peak`: the projected coordinate is on
the panel iff none of `xda < min_x`, `xda > max_x`, `yda < min_y`,
`yda > max_y` holds. -/
def panelHit (pl : Panel) (x y z k : ℚ) : Bool :=
  let xda := (projectPanel pl x y z k).1
  let yda := (projectPanel pl x y z k).2
  decide (¬ xda < pl.min_x ∧ ¬ xda > pl.max_x ∧ ¬ yda < pl.min_y ∧ ¬ yda > pl.max_y)

/-- The panel loop of `locate_peak` with its `found` state: a hit while
`found ≠ -1` returns `-1` at once (`none` here); otherwise the hit is
recorded and scanning continues. -/
def locate_peak_aux (x y z k : ℚ) :
    List Panel → ℕ → Option (ℕ × ℚ × ℚ) → Option (ℕ × ℚ × ℚ)
  | [], _, found => found
  | pl :: rest, idx, found =>
    if panelHit pl x y z k then
      match found with
      | some _ => none
      | none => locate_peak_aux x y z k rest (idx + 1) (some (idx, projectPanel pl x y z k))
    else locate_peak_aux x y z k rest (idx + 1) found

/-- `locate_peak(x, y, z, k, det, &xdap, &ydap)`: `none` models the `-1`
return (zero or multiple panels), `some (p, xda, yda)` the found panel. -/
def locate_peak (panels : List Panel) (x y z k : ℚ) : Option (ℕ × ℚ × ℚ) :=
  locate_peak_aux x y z k panels 0 none

theorem locate_peak_aux_some (x y z k : ℚ) :
    ∀ (ps : List Panel) (idx : ℕ) (f : ℕ × ℚ × ℚ),
      (locate_peak_aux x y z k ps idx (some f)).isSome = true ↔
        ps.countP (fun pl => panelHit pl x y z k) = 0 := by
  intro ps
  induction ps with
  | nil => intro idx f; simp [locate_peak_aux]
  | cons pl rest ih =>
    intro idx f
    by_cases h : panelHit pl x y z k
    · simp [locate_peak_aux, h, List.countP_cons]
    · simp only [locate_peak_aux, h, if_false, Bool.false_eq_true, List.countP_cons, if_neg h]
      rw [ih]
      simp

theorem locate_peak_aux_none (x y z k : ℚ) :
    ∀ (ps : List Panel) (idx : ℕ),
      (locate_peak_aux x y z k ps idx none).isSome = true ↔
        ps.countP (fun pl => panelHit pl x y z k) = 1 := by
  intro ps
  induction ps with
  | nil => intro idx; simp [locate_peak_aux]
  | cons pl rest ih =>
    intro idx
    by_cases h : panelHit pl x y z k
    · simp only [locate_peak_aux, h, if_true, List.countP_cons, if_pos h]
      rw [locate_peak_aux_some]
      omega
    · simp only [locate_peak_aux, h, if_false, Bool.false_eq_true, List.countP_cons, if_neg h]
      rw [ih]
      omega

/-- C6: the detector mapping of an accepted reciprocal lattice point succeeds
iff the projected coordinate falls within the bounds of exactly one panel;
zero panels or two or more panels yield the `-1` rejection (`none`), and
`find_intersections` then drops the point (`p == -1 → continue`). -/
theorem claim_C6 (panels : List Panel) (x y z k : ℚ) :
    (locate_peak panels x y z k).isSome = true ↔
      panels.countP (fun pl => panelHit pl x y z k) = 1 :=
  locate_peak_aux_none x y z k panels 0

/-! ## Ewald-shell acceptance (`geometry.c`, `find_intersections` lines 157-184) -/

/-- Result of the shell test for one candidate: the (possibly clamped)
excitation errors and the final `close` / `inside` flags. -/
structure ShellResult where
  rlow : ℚ
  rhigh : ℚ
  close : Bool
  inside : Bool
deriving DecidableEq

/-- The sequential clamp of `find_intersections`:
`if (r > cutoff) r = cutoff; if (r < -cutoff) r = -cutoff;`. -/
def clampCutoff (r : ℚ) : ℚ :=
  let r1 := if r > profileCutoff then profileCutoff else r
  if r1 < -profileCutoff then -profileCutoff else r1

theorem clampCutoff_mem (r : ℚ) :
    -profileCutoff ≤ clampCutoff r ∧ clampCutoff r ≤ profileCutoff := by
  unfold clampCutoff profileCutoff
  by_cases h1 : r > 5000000
  · simp only [h1, if_true]
    norm_num
  · simp only [h1, if_false]
    by_cases h2 : r < -5000000
    · simp only [h2, if_true]
      norm_num
    · simp only [h2, if_false]
      constructor <;> linarith

/-- Lines 161-184 of `find_intersections`: `close` when either excitation
error is within the profile cutoff, `inside` when the two errors have opposite
sign (`signbit(rlow) ^ signbit(rhigh)`; ℚ has no negative zero, so `signbit`
is `< 0`), `close` overridden to 0 when `inside`, skip when neither, then both
errors clamped to `±profile_cutoff`. -/
def shellTest (rlow rhigh : ℚ) : Option ShellResult :=
  let close0 := decide (|rlow| < profileCutoff) || decide (|rhigh| < profileCutoff)
  let inside := decide (rlow < 0) != decide (rhigh < 0)
  let close := if inside then false else close0
  if close || inside then
    some ⟨clampCutoff rlow, clampCutoff rhigh, close, inside⟩
  else none

/-- The reciprocal-space data of one candidate `(h,k,l)`, as computed by lines
146-159 of `find_intersections`: Cartesian position `xl,yl,zl`, modulus `ds`
(via `sqrt`) and the two excitation errors (via `excitation_error`, which uses
`asin`/`sin`).  The transcendental evaluations are external math-library
calls, so they enter the model as an oracle indexed by the Miller triple. -/
structure CandGeom where
  xl : ℚ
  yl : ℚ
  zl : ℚ
  ds : ℚ
  rlow : ℚ
  rhigh : ℚ

/-- One `cpeak` entry written by `find_intersections`. -/
structure CPeak where
  h : ℤ
  k : ℤ
  l : ℤ
  x : ℚ
  y : ℚ

/-- The body of `find_intersections`' triple loop for one candidate: skip the
central beam, the forward-scattering check `zl > profile_cutoff`, the
resolution check `ds > mres`, the Ewald-shell test, and the detector mapping. -/
def candidateStep (geom : ℤ × ℤ × ℤ → CandGeom) (panels : List Panel)
    (kcen mres : ℚ) (c : ℤ × ℤ × ℤ) : Option CPeak :=
  if c = (0, 0, 0) then none
  else
    let g := geom c
    if g.zl > profileCutoff then none
    else if g.ds > mres then none
    else
      match shellTest g.rlow g.rhigh with
      | none => none
      | some _ =>
        match locate_peak panels g.xl g.yl g.zl kcen with
        | none => none
        | some pr => some ⟨c.1, c.2.1, c.2.2, pr.2.1, pr.2.2⟩

/-- C5: for every candidate that passes the forward-scattering and resolution
checks, the shell test accepts iff the two excitation errors have opposite
sign or either magnitude is below the profile cutoff; in the accepted result
`inside` overrides `close`, and both error values are clamped to
`[-profile_cutoff, profile_cutoff]`; and `candidateStep` proceeds exactly
through this shell test before the detector mapping. -/
theorem claim_C5 (geom : ℤ × ℤ × ℤ → CandGeom) (panels : List Panel)
    (kcen mres : ℚ) (c : ℤ × ℤ × ℤ) (hc : c ≠ (0, 0, 0))
    (hz : ¬ (geom c).zl > profileCutoff) (hres : ¬ (geom c).ds > mres) :
    (candidateStep geom panels kcen mres c
      = match shellTest (geom c).rlow (geom c).rhigh with
        | none => none
        | some _ =>
          match locate_peak panels (geom c).xl (geom c).yl (geom c).zl kcen with
          | none => none
          | some pr => some ⟨c.1, c.2.1, c.2.2, pr.2.1, pr.2.2⟩) ∧
    ((shellTest (geom c).rlow (geom c).rhigh).isSome = true ↔
      ((((geom c).rlow < 0) ↔ ¬ ((geom c).rhigh < 0))
        ∨ |(geom c).rlow| < profileCutoff ∨ |(geom c).rhigh| < profileCutoff)) ∧
    (∀ sr, shellTest (geom c).rlow (geom c).rhigh = some sr →
      (sr.inside = true → sr.close = false) ∧
      -profileCutoff ≤ sr.rlow ∧ sr.rlow ≤ profileCutoff ∧
      -profileCutoff ≤ sr.rhigh ∧ sr.rhigh ≤ profileCutoff) := by
  refine ⟨?_, ?_, ?_⟩
  · unfold candidateStep
    rw [if_neg hc]
    simp only [if_neg hz, if_neg hres]
  · by_cases h1 : (geom c).rlow < 0 <;> by_cases h2 : (geom c).rhigh < 0 <;>
      by_cases h3 : |(geom c).rlow| < profileCutoff <;>
      by_cases h4 : |(geom c).rhigh| < profileCutoff <;>
      simp [shellTest, h1, h2, h3, h4]
  · intro sr hsr
    by_cases h1 : (geom c).rlow < 0 <;> by_cases h2 : (geom c).rhigh < 0 <;>
      by_cases h3 : |(geom c).rlow| < profileCutoff <;>
      by_cases h4 : |(geom c).rhigh| < profileCutoff <;>
      simp [shellTest, h1, h2, h3, h4] at hsr <;>
      (subst hsr
       exact ⟨by simp, (clampCutoff_mem _).1, (clampCutoff_mem _).2,
              (clampCutoff_mem _).1, (clampCutoff_mem _).2⟩)

/-- Witness for C5: both excitation errors zero (well inside the cutoff) on a
candidate `(1,0,0)` that passes the forward-scattering and resolution checks:
the shell test accepts. -/
theorem claim_C5_witness : (shellTest 0 0).isSome = true :=
  (claim_C5 (fun _ => ⟨0, 0, 0, 0, 0, 0⟩) [] 0 0 (1, 0, 0) (by decide)
      (by norm_num [profileCutoff]) (by norm_num)).2.1.mpr
    (Or.inr (Or.inl (by norm_num [profileCutoff])))

/-! ## Prediction cap (`geometry.c`, `MAX_CPEAKS` and `find_intersections`) -/

/-- `#define MAX_CPEAKS (256 * 256)`. -/
def MAX_CPEAKS : ℕ := 256 * 256

/-- The accumulation of accepted candidates into `cpeaks[np++]`, with the
`if (np == MAX_CPEAKS) goto out;` early exit. -/
def intersectLoop (step : ℤ × ℤ × ℤ → Option CPeak) :
    List (ℤ × ℤ × ℤ) → List CPeak → List CPeak
  | [], acc => acc
  | c :: rest, acc =>
    match step c with
    | none => intersectLoop step rest acc
    | some e =>
      let acc' := acc ++ [e]
      if acc'.length = MAX_CPEAKS then acc' else intersectLoop step rest acc'

/-- `find_intersections(image, cell, n, output)`: run the candidate loop over
the Miller-index bounding box (passed in as `cands`; the cap claim holds for
every enumeration) starting from an empty array. -/
def find_intersections (geom : ℤ × ℤ × ℤ → CandGeom) (panels : List Panel)
    (kcen mres : ℚ) (cands : List (ℤ × ℤ × ℤ)) : List CPeak :=
  intersectLoop (candidateStep geom panels kcen mres) cands []

theorem intersectLoop_length_le (step : ℤ × ℤ × ℤ → Option CPeak) :
    ∀ (cands : List (ℤ × ℤ × ℤ)) (acc : List CPeak),
      acc.length < MAX_CPEAKS → (intersectLoop step cands acc).length ≤ MAX_CPEAKS := by
  intro cands
  induction cands with
  | nil => intro acc h; exact le_of_lt h
  | cons c rest ih =>
    intro acc h
    unfold intersectLoop
    cases hs : step c with
    | none => exact ih acc h
    | some e =>
      simp only
      by_cases hl : (acc ++ [e]).length = MAX_CPEAKS
      · simp only [hl, if_true]
        exact le_refl _
      · simp only [hl, if_false]
        have : (acc ++ [e]).length < MAX_CPEAKS := by
          simp only [List.length_append, List.length_singleton] at hl ⊢
          omega
        exact ih _ this

/-- C10: `find_intersections` never returns more than `256·256 = 65536`
predicted reflections, for every cell/image geometry and every candidate
enumeration: the accumulation stops as soon as the cap is reached, so the
returned count `n` satisfies `n ≤ 65536` (and `0 ≤ n` trivially in ℕ). -/
theorem claim_C10 (geom : ℤ × ℤ × ℤ → CandGeom) (panels : List Panel)
    (kcen mres : ℚ) (cands : List (ℤ × ℤ × ℤ)) :
    (find_intersections geom panels kcen mres cands).length ≤ 65536 :=
  intersectLoop_length_le _ cands [] (by norm_num [MAX_CPEAKS])

/-! ## Prediction refinement (`predict-refine.c`, `refine_prediction` / `iterate`)

`refine_prediction` pairs peaks, normalises intensities, runs `MAX_CYCLES`
Gauss-Newton cycles (each ending in `crystal_set_det_shift`), re-pairs, and
returns a status.  `pair_peaks` only reads the crystal's cell and detector
shift (it attaches and detaches a scratch reflection list but never writes
cell or shift), so only its accepted-pair count matters to the refined state;
the normal equations are solved by `solve_svd` (GSL-based, outside this
repository), so each cycle's solve result enters as an oracle indexed by the
cycle number.  What remains — the gates on the two pair counts and on the
maximum intensity, the application of the 11 shifts to the cell and the
accumulated detector shift, and the restore-on-failure logic — is modelled
statement for statement. -/

/-- The nine reciprocal-cell components, in `cell_get_reciprocal` order. -/
structure Cell9 where
  asx : ℚ
  asy : ℚ
  asz : ℚ
  bsx : ℚ
  bsy : ℚ
  bsz : ℚ
  csx : ℚ
  csy : ℚ
  csz : ℚ
deriving DecidableEq

/-- The crystal state touched by `refine_prediction`: the cell (mutated in
place by `cell_set_reciprocal`) and the detector shift
(`crystal_get_det_shift` / `crystal_set_det_shift`). -/
structure CrystalSt where
  cell : Cell9
  shift_x : ℚ
  shift_y : ℚ
deriving DecidableEq

/-- `#define MAX_CYCLES (10)` in `predict-refine.c`. -/
def MAX_CYCLES : ℕ := 10

/-- Lines 501-518 of `iterate`: the 11 solved shifts applied, in the order of
`rv[]`, to the nine reciprocal components and to the accumulated detector
shift (`*total_z += 0.0` leaves nothing to model); the NaN-to-zero clamp on
shift components has no ℚ counterpart. -/
def applyShifts (cell : Cell9) (tx ty : ℚ) (s : Fin 11 → ℚ) : Cell9 × ℚ × ℚ :=
  (⟨cell.asx + s 0, cell.asy + s 1, cell.asz + s 2,
    cell.bsx + s 3, cell.bsy + s 4, cell.bsz + s 5,
    cell.csx + s 6, cell.csy + s 7, cell.csz + s 8⟩,
   tx + s 9, ty + s 10)

/-- Environment of one `refine_prediction` call: the accepted-pair count of
the initial `pair_peaks`, the paired peaks' intensities, the per-cycle
`solve_svd` outcome (`none` = NULL, i.e. solve failure), and the
accepted-pair count of the final re-pairing. -/
structure RefineEnv where
  pair1 : ℕ
  intensities : List ℚ
  solver : ℕ → Option (Fin 11 → ℚ)
  pair2 : ℕ

/-- The `for (i=0; i<MAX_CYCLES; i++)` loop of `refine_prediction`: each
cycle runs `iterate` (which returns 1 when `solve_svd` yields NULL, without
applying any shift, upon which `refine_prediction` returns 1 with the current
cell and the crystal shift as last set) and then
`crystal_set_det_shift(cr, total_x, total_y)`.  Arguments: cycles remaining,
cycle index, current cell, accumulated `total` shift, crystal's stored shift. -/
def runCycles (solver : ℕ → Option (Fin 11 → ℚ)) :
    ℕ → ℕ → Cell9 → ℚ × ℚ → ℚ × ℚ → Except CrystalSt (Cell9 × ℚ × ℚ)
  | 0, _, cell, tot, _ => .ok (cell, tot.1, tot.2)
  | m + 1, i, cell, tot, cs =>
    match solver i with
    | none => .error ⟨cell, cs.1, cs.2⟩
    | some sh =>
      match applyShifts cell tot.1 tot.2 sh with
      | (cell', tx', ty') => runCycles solver m (i + 1) cell' (tx', ty') (tx', ty')

/-- `refine_prediction(image, cr)`: `true` models a nonzero (failure) return.
Gates in source order: `n < 10` after the initial pairing (return leaving the
crystal untouched); `max_I <= 0.0` (`max_I` starts at `-INFINITY`, so an
empty intensity list also fails; return leaving the crystal untouched); the
`MAX_CYCLES` refinement cycles; and `n < 10` after the final re-pairing,
which restores the entry detector shift `orig_shift_x/y` — and only the
shift — before returning 1. -/
def refine_prediction (env : RefineEnv) (st : CrystalSt) : Bool × CrystalSt :=
  if env.pair1 < 10 then (true, st)
  else
    match env.intensities.max? with
    | none => (true, st)
    | some maxI =>
      if maxI ≤ 0 then (true, st)
      else
        match runCycles env.solver MAX_CYCLES 0 st.cell (st.shift_x, st.shift_y)
            (st.shift_x, st.shift_y) with
        | .error st' => (true, st')
        | .ok (cell', tx, ty) =>
          if env.pair2 < 10 then (true, ⟨cell', st.shift_x, st.shift_y⟩)
          else (false, ⟨cell', tx, ty⟩)

/-- A crystal state and environments reused by the concrete evaluations:
cell at the origin, zero detector shift. -/
def st0 : CrystalSt := ⟨⟨0, 0, 0, 0, 0, 0, 0, 0, 0⟩, 0, 0⟩

/-- Environment reaching the final re-pairing gate with a drifting cell: 10
initial pairs, one positive intensity, a solver that shifts every parameter
by 1 each cycle, and a final re-pairing that accepts 0 pairs. -/
def envDrift : RefineEnv :=
  ⟨10, [1], fun _ => some (fun _ => 1), 0⟩

/-- C1 as stated is false: when `refine_prediction` fails at the *final*
re-pairing (fewer than 10 pairs after the cycles), the detector shift is
restored but the unit cell keeps its refined value.  Here the entry cell is
the origin cell and the returned cell has every component equal to 10. -/
theorem claim_C1_counterexample :
    (refine_prediction envDrift st0).1 = true ∧
    (refine_prediction envDrift st0).2.shift_x = st0.shift_x ∧
    (refine_prediction envDrift st0).2.shift_y = st0.shift_y ∧
    ¬ (refine_prediction envDrift st0).2.cell = st0.cell := by
  norm_num [refine_prediction, envDrift, st0, MAX_CYCLES, runCycles, applyShifts,
    List.max?]

/-- C1 (amended): if the initial pairing accepts fewer than 10 pairs,
`refine_prediction` fails with the crystal completely untouched (cell and
detector shift at entry values); if the final re-pairing accepts fewer than
10 pairs, it fails with the detector shift restored to its entry value while
the cell retains the refined values. -/
theorem claim_C1 (env : RefineEnv) (st : CrystalSt) :
    (env.pair1 < 10 → refine_prediction env st = (true, st)) ∧
    (¬ env.pair1 < 10 →
      ∀ m, env.intensities.max? = some m → 0 < m →
      ∀ cell' tx ty,
        runCycles env.solver MAX_CYCLES 0 st.cell (st.shift_x, st.shift_y)
          (st.shift_x, st.shift_y) = .ok (cell', tx, ty) →
        env.pair2 < 10 →
        refine_prediction env st = (true, ⟨cell', st.shift_x, st.shift_y⟩)) := by
  constructor
  · intro h
    unfold refine_prediction
    rw [if_pos h]
  · intro h10 m hm hpos cell' tx ty hrun h2
    unfold refine_prediction
    rw [if_neg h10, hm]
    simp only
    rw [if_neg (not_le.mpr hpos), hrun]
    simp only
    rw [if_pos h2]

/-- Witness for C1 at concrete inputs: an initial pairing of 0 pairs leaves
`st0` untouched, and `envDrift` fails at the final re-pairing with the shift
restored and the refined cell kept. -/
theorem claim_C1_witness :
    refine_prediction ⟨0, [], fun _ => none, 0⟩ st0 = (true, st0) ∧
    refine_prediction envDrift st0 =
      (true, ⟨⟨10, 10, 10, 10, 10, 10, 10, 10, 10⟩, 0, 0⟩) := by
  constructor
  · exact (claim_C1 _ _).1 (by norm_num)
  · exact (claim_C1 envDrift st0).2 (by norm_num [envDrift]) 1 (by rfl) (by norm_num)
      ⟨10, 10, 10, 10, 10, 10, 10, 10, 10⟩ 10 10
      (by norm_num [envDrift, st0, MAX_CYCLES, runCycles, applyShifts])
      (by norm_num [envDrift])

/-- C9: with at least 10 accepted pairs but every paired intensity
non-positive, `refine_prediction` fails before the first refinement cycle and
leaves the crystal state (cell and detector shift) unchanged. -/
theorem claim_C9 (env : RefineEnv) (st : CrystalSt)
    (h10 : ¬ env.pair1 < 10) (hneg : ∀ I ∈ env.intensities, I ≤ 0) :
    refine_prediction env st = (true, st) := by
  unfold refine_prediction
  rw [if_neg h10]
  cases hmax : env.intensities.max? with
  | none => rfl
  | some m =>
    have hmem : m ∈ env.intensities :=
      List.max?_mem (fun a b => max_choice a b) hmax
    have hle : m ≤ 0 := hneg m hmem
    simp only
    rw [if_pos hle]

/-- Witness for C9: 10 pairs whose intensities are `-1` and `0`. -/
theorem claim_C9_witness :
    refine_prediction ⟨10, [-1, 0], fun _ => none, 0⟩ st0 = (true, st0) := by
  refine claim_C9 _ _ (by norm_num) ?_
  intro I hI
  rcases List.mem_cons.mp hI with rfl | hI'
  · norm_num
  · rcases List.mem_singleton.mp hI' with rfl
    norm_num

/-! ## Scaling iteration (`scaling.c`, `scale_iterate` / `log_residual`)

One scaling cycle walks the crystal's reflection list and accumulates the
2×2 normal equations over the reflections that pass the sequence of
`continue` filters; `nref` counts exactly the contributing reflections. -/

/-- One reflection of a crystal's list as read by `scale_iterate`:
Miller indices, measured intensity, its esd, partiality, and the free
("held out for validation") flag read by `get_flag`. -/
structure SRefl where
  h : ℤ
  k : ℤ
  l : ℤ
  intensity : ℚ
  esd : ℚ
  partiality : ℚ
  flag : Bool
deriving DecidableEq

/-- One reflection of the merged reference list: intensity and redundancy. -/
structure MRefl where
  h : ℤ
  k : ℤ
  l : ℤ
  intensity : ℚ
  redundancy : ℕ
deriving DecidableEq

/-- `find_refl(full, ha, ka, la)`: look up the merged reflection by indices. -/
def find_refl (full : List MRefl) (h k l : ℤ) : Option MRefl :=
  full.find? (fun m => decide (m.h = h ∧ m.k = k ∧ m.l = l))

/-- The `continue` chain of `scale_iterate`'s loop, in source order: free
flag set; no match in `full`; `I_partial <= 3.0*esd`; `redundancy < 2`;
`I_full <= 0`; `p <= 0.0`.  A reflection contributes to the normal-equation
accumulation iff this returns `true`. -/
def useRefl (full : List MRefl) (r : SRefl) : Bool :=
  if r.flag then false
  else
    match find_refl full r.h r.k r.l with
    | none => false
    | some m =>
      if r.intensity ≤ 3 * r.esd then false
      else if m.redundancy < 2 then false
      else if m.intensity ≤ 0 then false
      else if r.partiality ≤ 0 then false
      else true

/-- The reflections contributing to one `scale_iterate` cycle (those counted
by `nref` and accumulated into `M` and `v`). -/
def scale_iterate_used (full : List MRefl) (refls : List SRefl) : List SRefl :=
  refls.filter (useRefl full)

/-- C8: a reflection contributes to the 2×2 normal-equation fit iff its
validation flag is clear, a matching reflection exists in the merged
reference with redundancy ≥ 2 and strictly positive intensity, the
partiality is strictly positive, and the measured intensity exceeds 3 times
its standard deviation. -/
theorem claim_C8 (full : List MRefl) (refls : List SRefl) (r : SRefl) :
    r ∈ scale_iterate_used full refls ↔
      (r ∈ refls ∧ r.flag = false ∧
       (∃ m, find_refl full r.h r.k r.l = some m ∧
             2 ≤ m.redundancy ∧ 0 < m.intensity) ∧
       0 < r.partiality ∧ 3 * r.esd < r.intensity) := by
  rw [scale_iterate_used, List.mem_filter]
  constructor
  · rintro ⟨hmem, huse⟩
    refine ⟨hmem, ?_⟩
    unfold useRefl at huse
    by_cases hf : r.flag = true
    · simp [hf] at huse
    · have hf' : r.flag = false := Bool.eq_false_iff.2 hf
      rw [hf'] at huse
      simp only [Bool.false_eq_true, if_false] at huse
      cases hm : find_refl full r.h r.k r.l with
      | none => rw [hm] at huse; simp at huse
      | some m =>
        rw [hm] at huse
        have huse' : (if r.intensity ≤ 3 * r.esd then false
            else if m.redundancy < 2 then false
            else if m.intensity ≤ 0 then false
            else if r.partiality ≤ 0 then false else true) = true := huse
        split_ifs at huse' with h1 h2 h3 h4
        refine ⟨hf', ⟨m, rfl, ?_, ?_⟩, ?_, ?_⟩
        · omega
        · exact not_le.mp h3
        · exact not_le.mp h4
        · exact not_le.mp h1
  · rintro ⟨hmem, hf, ⟨m, hm, hred, hpos⟩, hp, hint⟩
    refine ⟨hmem, ?_⟩
    unfold useRefl
    rw [hf]
    simp only [Bool.false_eq_true, if_false, hm]
    rw [if_neg (not_le.mpr hint), if_neg (by omega), if_neg (not_le.mpr hpos),
        if_neg (not_le.mpr hp)]

/-! ## One-off linear scale (`scaling.c`, `linear_scale`)

`linear_scale(list1, list2, &G)` collects usable pairs, then calls
`gsl_fit_wmul` (GSL, external to this repository) for the weighted
no-intercept fit `y ≈ G·x` with weight `w`.  The IEEE checks `isnan(Ih)` /
`isinf(Ih)` on inputs have no ℚ counterpart; the fit's double result is
modelled as `Option ℚ`, `none` standing for a NaN result of the external
routine (reachable in IEEE arithmetic, e.g. a matched pair with partiality
0 puts `0·∞ = NaN` into the weighted sums). -/

/-- One reflection as read by `linear_scale`. -/
structure LRefl where
  h : ℤ
  k : ℤ
  l : ℤ
  intensity : ℚ
  partiality : ℚ
deriving DecidableEq

/-- Index lookup in the second list (`find_refl`). -/
def find_lrefl (lst : List LRefl) (h k l : ℤ) : Option LRefl :=
  lst.find? (fun m => decide (m.h = h ∧ m.k = k ∧ m.l = l))

/-- The pair-collection loop of `linear_scale`: skip unmatched reflections
and non-positive intensities; a surviving pair contributes
`x = Ih2/p2`, `y = Ih1`, `w = p2`. -/
def scalePairs (list1 list2 : List LRefl) : List (ℚ × ℚ × ℚ) :=
  list1.filterMap (fun r1 =>
    match find_lrefl list2 r1.h r1.k r1.l with
    | none => none
    | some r2 =>
      if r1.intensity ≤ (0 : ℚ) ∨ r2.intensity ≤ (0 : ℚ) then none
      else some (r2.intensity / r2.partiality, r1.intensity, r2.partiality))

/-- Outcome of `linear_scale`: `ok G` is the 0 return with `*G` set, `error`
the 1 return, and `aborted` models the `abort()` call — uncontrolled process
termination, not a returned status (the `return 1` after `abort()` is
unreachable). -/
inductive ScaleOutcome where
  | ok (G : ℚ)
  | error
  | aborted
deriving DecidableEq

/-- `linear_scale(list1, list2, G)`: fewer than 2 usable pairs returns 1;
otherwise `gsl_fit_wmul` runs (it cannot fail for these inputs) and a NaN
fitted factor hits `if (isnan(*G)) { ERROR(...); abort(); return 1; }`. -/
def linear_scale (fit : List (ℚ × ℚ × ℚ) → Option ℚ)
    (list1 list2 : List LRefl) : ScaleOutcome :=
  let pairs := scalePairs list1 list2
  if pairs.length < 2 then ScaleOutcome.error
  else
    match fit pairs with
    | some G => ScaleOutcome.ok G
    | none => ScaleOutcome.aborted

/-- C2 fails on the code: with fewer than 2 usable pairs `linear_scale` does
return an error status, but when the fitted factor is NaN it calls `abort()`
and terminates the process instead of returning an error status.  Evaluated
here at two reflection lists giving 2 usable pairs and a non-finite fit. -/
theorem claim_C2 :
    linear_scale (fun _ => none) [] [] = ScaleOutcome.error ∧
    linear_scale (fun _ => none)
      [⟨0, 0, 1, 1, 1⟩, ⟨0, 1, 0, 1, 1⟩]
      [⟨0, 0, 1, 1, 1⟩, ⟨0, 1, 0, 1, 1⟩] = ScaleOutcome.aborted := by
  constructor
  · rfl
  · norm_num [linear_scale, scalePairs, find_lrefl, List.filterMap, List.find?]

/-! ## Pairing distance test (`predict-refine.c`, `pair_peaks` lines 270-293)

For a candidate surviving the index rejection, `pair_peaks` transforms the
predicted and observed detector positions to 3D metres
(`detgeom_transform_coords`, external detector-geometry code; its two output
points are the inputs here) and keeps the pairing unless
`modulus(Δx, Δy, Δz) > lowest_one_over_d / 3.0`.  `modulus` is the Euclidean
length (utils.c, not under `src/`; modelled from the spec's "real-space
distance (3D)"). -/

/-- The distance test of `pair_peaks`: the pairing is kept iff the `continue`
condition `modulus(...) > lowest/3` is false. -/
def pairDistanceOk (rx ry rz px py pz lowest : ℝ) : Prop :=
  ¬ (Real.sqrt ((rx - px) ^ 2 + (ry - py) ^ 2 + (rz - pz) ^ 2) > lowest / 3)

/-- C3 as stated is false at the boundary: a candidate displaced by exactly
one third of the shortest inter-Bragg spacing (here distance 1 with
`lowest_one_over_d = 3`) is accepted by the code, while "below one third"
does not hold. -/
theorem claim_C3_counterexample :
    pairDistanceOk 1 0 0 0 0 0 3 ∧
    ¬ (Real.sqrt (((1 : ℝ) - 0) ^ 2 + ((0 : ℝ) - 0) ^ 2 + ((0 : ℝ) - 0) ^ 2)
        < 3 / 3) := by
  have h : Real.sqrt (((1 : ℝ) - 0) ^ 2 + ((0 : ℝ) - 0) ^ 2 + ((0 : ℝ) - 0) ^ 2) = 1 := by
    norm_num
  constructor
  · unfold pairDistanceOk
    rw [h]
    norm_num
  · rw [h]
    norm_num

/-- C3 (amended): the pairing is accepted in the distance test iff the 3D
real-space distance between predicted and observed position is **at most**
one third of the shortest inter-Bragg spacing (boundary included); in
particular every candidate displaced by strictly less than the threshold
pairs, and every candidate displaced by strictly more never pairs. -/
theorem claim_C3 (rx ry rz px py pz lowest : ℝ) :
    pairDistanceOk rx ry rz px py pz lowest ↔
      Real.sqrt ((rx - px) ^ 2 + (ry - py) ^ 2 + (rz - pz) ^ 2) ≤ lowest / 3 :=
  not_lt

/-! ## Aperture integration (`peaks.c`, `integrate_peak`)

`integrate_peak(image, cfs, css, ...)` estimates the background in the
annulus between `ir_mid` and `ir_out`, then measures the
background-subtracted signal within `ir_inn`, returning nonzero (a veto) on
any of the rejection conditions.  The pixel data, the bad-region lookup, the
optional flag buffer and the optional background peak mask are the image
environment; the loop radii are integers here (the C loop variables are
`signed int` driven by the double radii; for integral radii the iteration
ranges coincide).  `aduph = adu_per_eV * ph_lambda_to_eV(lambda)` is the
gain factor, passed in directly. -/

/-- The panel fields read by `integrate_peak` (`struct panel`, old geometry
model): bounds, the `no_index` flag, and the saturation value. -/
structure IPanel where
  min_fs : ℤ
  max_fs : ℤ
  min_ss : ℤ
  max_ss : ℤ
  noIndex : Bool
  max_adu : ℚ

/-- The image environment of one `integrate_peak` call: pixel data addressed
by absolute `(fs, ss)` (the C index `dfs+cfs+image->width*(dss+css)` denotes
exactly the pixel `(cfs+dfs, css+dss)`), the `in_bad_region` lookup, the
optional flag buffer with the good/bad masks, and the optional
`bgPkMask` (panel-relative coordinates). -/
structure IntegEnv where
  data : ℤ → ℤ → ℚ
  badRegion : ℤ → ℤ → Bool
  flags : Option (ℤ → ℤ → ℕ)
  maskGood : ℕ
  maskBad : ℕ
  bgMask : Option (ℤ → ℤ → Bool)

/-- The two flag tests of `integrate_peak`: the pixel is rejected unless it
has all the "good" bits and none of the "bad" bits; no flag buffer means no
flag veto. -/
def pixelBadFlags (env : IntegEnv) (fs ss : ℤ) : Bool :=
  match env.flags with
  | none => false
  | some f =>
    !((f fs ss &&& env.maskGood) == env.maskGood) || !((f fs ss &&& env.maskBad) == 0)

/-- The offsets `-r .. r` of one loop dimension. -/
def offsetRange (r : ℕ) : List ℤ :=
  (List.range (2 * r + 1)).map (fun i => (i : ℤ) - (r : ℤ))

/-- The `(dfs, dss)` double loop, `dfs` outer as in the C code. -/
def offsets (r : ℕ) : List (ℤ × ℤ) :=
  (offsetRange r).product (offsetRange r)

/-- The "strayed off one panel?" test:
`p_cfs+dfs >= p_w || p_css+dss >= p_h || p_cfs+dfs < 0 || p_css+dss < 0`
with `p_cfs = cfs - min_fs`, `p_w = max_fs - min_fs + 1` (and likewise for
the slow-scan direction). -/
def offPanel (p : IPanel) (cfs css dfs dss : ℤ) : Bool :=
  decide (cfs - p.min_fs + dfs ≥ p.max_fs - p.min_fs + 1
    ∨ css - p.min_ss + dss ≥ p.max_ss - p.min_ss + 1
    ∨ cfs - p.min_fs + dfs < 0
    ∨ css - p.min_ss + dss < 0)

/-- The `bgPkMask[(p_cfs+dfs) + p_w*(p_css+dss)]` exclusion (panel-relative
coordinates); no mask means no exclusion. -/
def bgMaskHit (env : IntegEnv) (p : IPanel) (cfs css dfs dss : ℤ) : Bool :=
  match env.bgMask with
  | none => false
  | some msk => msk (cfs - p.min_fs + dfs) (css - p.min_ss + dss)

/-- Membership in the background annulus: neither
`dfs²+dss² > out_lim_sq` nor `dfs²+dss² < mid_lim_sq`. -/
def inBgAnnulus (irm iro : ℕ) (d : ℤ × ℤ) : Bool :=
  !decide (d.1 * d.1 + d.2 * d.2 > (iro : ℤ) * (iro : ℤ)) &&
  !decide (d.1 * d.1 + d.2 * d.2 < (irm : ℤ) * (irm : ℤ))

/-- Membership in the signal aperture: not `dfs²+dss² > lim_sq`. -/
def inAperture (irin : ℕ) (d : ℤ × ℤ) : Bool :=
  !decide (d.1 * d.1 + d.2 * d.2 > (irin : ℤ) * (irin : ℤ))

/-- Accumulator of the background loop: `bg_tot`, `bg_tot_sq`, `bg_counts`
and the saturation flag threaded through `*saturated`. -/
structure BgAcc where
  bg_tot : ℚ
  bg_tot_sq : ℚ
  bg_counts : ℕ
  saturated : Bool

/-- The background-estimation loop ("Estimate the background"), with its
`continue`s (outside the annulus, under the background peak mask) and its
`return 1` vetoes (off the panel, in a bad region, bad flags), in source
order. -/
def bgLoop (env : IntegEnv) (p : IPanel) (cfs css : ℤ) (irm iro : ℕ)
    (usem : Bool) : List (ℤ × ℤ) → BgAcc → Except Unit BgAcc
  | [], acc => .ok acc
  | d :: rest, acc =>
    if d.1 * d.1 + d.2 * d.2 > (iro : ℤ) * (iro : ℤ) then
      bgLoop env p cfs css irm iro usem rest acc
    else if d.1 * d.1 + d.2 * d.2 < (irm : ℤ) * (irm : ℤ) then
      bgLoop env p cfs css irm iro usem rest acc
    else if offPanel p cfs css d.1 d.2 then .error ()
    else if env.badRegion (cfs + d.1) (css + d.2) then .error ()
    else if bgMaskHit env p cfs css d.1 d.2 then
      bgLoop env p cfs css irm iro usem rest acc
    else if pixelBadFlags env (cfs + d.1) (css + d.2) then .error ()
    else
      let val := env.data (cfs + d.1) (css + d.2)
      bgLoop env p cfs css irm iro usem rest
        ⟨acc.bg_tot + val, acc.bg_tot_sq + val ^ 2, acc.bg_counts + 1,
         acc.saturated || (usem && decide (val > p.max_adu))⟩

/-- Accumulator of the signal loop: `pk_total`, `pk_counts`, the centroid
sums `fsct`/`ssct` and the saturation flag. -/
structure PkAcc where
  pk_total : ℚ
  pk_counts : ℕ
  fsct : ℚ
  ssct : ℚ
  saturated : Bool

/-- The signal-measurement loop ("Measure the peak"): `continue` outside the
inner radius, `return 1` off the panel, in a bad region or on bad flags;
each surviving pixel contributes its background-subtracted value. -/
def pkLoop (env : IntegEnv) (p : IPanel) (cfs css : ℤ) (irin : ℕ)
    (usem : Bool) (bg_mean : ℚ) : List (ℤ × ℤ) → PkAcc → Except Unit PkAcc
  | [], acc => .ok acc
  | d :: rest, acc =>
    if d.1 * d.1 + d.2 * d.2 > (irin : ℤ) * (irin : ℤ) then
      pkLoop env p cfs css irin usem bg_mean rest acc
    else if offPanel p cfs css d.1 d.2 then .error ()
    else if env.badRegion (cfs + d.1) (css + d.2) then .error ()
    else if pixelBadFlags env (cfs + d.1) (css + d.2) then .error ()
    else
      let val := env.data (cfs + d.1) (css + d.2) - bg_mean
      pkLoop env p cfs css irin usem bg_mean rest
        ⟨acc.pk_total + val, acc.pk_counts + 1,
         acc.fsct + val * ((cfs + d.1 : ℤ) : ℚ),
         acc.ssct + val * ((css + d.2 : ℤ) : ℚ),
         acc.saturated || (usem && decide (val > p.max_adu))⟩

/-- `bg_mean = bg_tot / bg_counts`. -/
def bgMean (ba : BgAcc) : ℚ := ba.bg_tot / (ba.bg_counts : ℚ)

/-- `bg_var = (bg_tot_sq/bg_counts) - bg_mean²`. -/
def bgVar (ba : BgAcc) : ℚ := ba.bg_tot_sq / (ba.bg_counts : ℚ) - (bgMean ba) ^ 2

/-- The successful output of `integrate_peak`: refined position, intensity
(`pk_total`), and the variance `var` whose square root is the reported
sigma (`*sigma = sqrt(var)`), together with the quantities it was built
from. -/
structure IntegResult where
  pfs : ℚ
  pss : ℚ
  intensity : ℚ
  bg_var : ℚ
  pk_counts : ℕ
  var : ℚ
  saturated : Bool

/-- `integrate_peak(image, cfs, css, ...)`: `none` panel models a NULL
`find_panel` result; then the `no_index` veto, the background loop, the
`bg_counts == 0` veto, the signal loop, the `pk_counts == 0` veto and the
`var < 0.0` veto, returning the intensity and the variance
`pk_counts*bg_var + aduph*pk_total` on success. -/
def integrate_peak_panel (env : IntegEnv) (p : IPanel) (cfs css : ℤ)
    (aduph : ℚ) (irin irm iro : ℕ) (usem : Bool) : Except Unit IntegResult :=
  if p.noIndex then .error ()
  else
    match bgLoop env p cfs css irm iro usem (offsets iro) ⟨0, 0, 0, false⟩ with
    | .error _ => .error ()
    | .ok ba =>
      if ba.bg_counts = 0 then .error ()
      else
        match pkLoop env p cfs css irin usem (bgMean ba) (offsets irin)
            ⟨0, 0, 0, 0, ba.saturated⟩ with
        | .error _ => .error ()
        | .ok pa =>
          if pa.pk_counts = 0 then .error ()
          else if (pa.pk_counts : ℚ) * bgVar ba + aduph * pa.pk_total < 0 then
            .error ()
          else
            .ok ⟨pa.fsct / pa.pk_total + 1 / 2, pa.ssct / pa.pk_total + 1 / 2,
                 pa.pk_total, bgVar ba, pa.pk_counts,
                 (pa.pk_counts : ℚ) * bgVar ba + aduph * pa.pk_total,
                 pa.saturated⟩

/-- `integrate_peak(image, cfs, css, ...)`: a `none` panel models a NULL
`find_panel` result; otherwise the per-panel body runs. -/
def integrate_peak (env : IntegEnv) (pOpt : Option IPanel) (cfs css : ℤ)
    (aduph : ℚ) (irin irm iro : ℕ) (usem : Bool) : Except Unit IntegResult :=
  match pOpt with
  | none => .error ()
  | some p => integrate_peak_panel env p cfs css aduph irin irm iro usem

/-- A background-annulus sample that actually enters `bg_tot`/`bg_counts`:
inside the annulus and not excluded by the background peak mask. -/
def bgUsable (env : IntegEnv) (p : IPanel) (cfs css : ℤ) (irm iro : ℕ)
    (d : ℤ × ℤ) : Bool :=
  inBgAnnulus irm iro d && !bgMaskHit env p cfs css d.1 d.2

/-- If the background loop completes without a veto, every annulus sample is
on the panel, outside bad regions, and (unless excluded by the background
mask) carries good flags; and `bg_counts` has grown by exactly the number of
usable annulus samples. -/
theorem bgLoop_ok (env : IntegEnv) (p : IPanel) (cfs css : ℤ) (irm iro : ℕ)
    (usem : Bool) :
    ∀ (l : List (ℤ × ℤ)) (acc acc' : BgAcc),
      bgLoop env p cfs css irm iro usem l acc = .ok acc' →
      (∀ d ∈ l, inBgAnnulus irm iro d = true →
        offPanel p cfs css d.1 d.2 = false ∧
        env.badRegion (cfs + d.1) (css + d.2) = false ∧
        (bgMaskHit env p cfs css d.1 d.2 = false →
          pixelBadFlags env (cfs + d.1) (css + d.2) = false)) ∧
      acc'.bg_counts = acc.bg_counts + l.countP (bgUsable env p cfs css irm iro) := by
  intro l
  induction l with
  | nil =>
    intro acc acc' h
    simp only [bgLoop] at h
    cases h
    exact ⟨fun d hd => absurd hd (List.not_mem_nil d), by simp⟩
  | cons d rest ih =>
    intro acc acc' h
    simp only [bgLoop] at h
    by_cases h1 : d.1 * d.1 + d.2 * d.2 > (iro : ℤ) * (iro : ℤ)
    · rw [if_pos h1] at h
      obtain ⟨hall, hcount⟩ := ih acc acc' h
      refine ⟨?_, ?_⟩
      · intro e he hin
        rcases List.mem_cons.mp he with rfl | he'
        · exact absurd hin (by simp [inBgAnnulus, h1])
        · exact hall e he' hin
      · rw [hcount, List.countP_cons]
        have hu : bgUsable env p cfs css irm iro d = false := by
          simp [bgUsable, inBgAnnulus, h1]
        rw [hu]
        simp
    · rw [if_neg h1] at h
      by_cases h2 : d.1 * d.1 + d.2 * d.2 < (irm : ℤ) * (irm : ℤ)
      · rw [if_pos h2] at h
        obtain ⟨hall, hcount⟩ := ih acc acc' h
        refine ⟨?_, ?_⟩
        · intro e he hin
          rcases List.mem_cons.mp he with rfl | he'
          · exact absurd hin (by simp [inBgAnnulus, h2])
          · exact hall e he' hin
        · rw [hcount, List.countP_cons]
          have hu : bgUsable env p cfs css irm iro d = false := by
            simp [bgUsable, inBgAnnulus, h2]
          rw [hu]
          simp
      · rw [if_neg h2] at h
        by_cases h3 : offPanel p cfs css d.1 d.2 = true
        · rw [if_pos h3] at h
          exact absurd h (by simp)
        · rw [if_neg h3] at h
          by_cases h4 : env.badRegion (cfs + d.1) (css + d.2) = true
          · rw [if_pos h4] at h
            exact absurd h (by simp)
          · rw [if_neg h4] at h
            by_cases h5 : bgMaskHit env p cfs css d.1 d.2 = true
            · rw [if_pos h5] at h
              obtain ⟨hall, hcount⟩ := ih acc acc' h
              refine ⟨?_, ?_⟩
              · intro e he hin
                rcases List.mem_cons.mp he with rfl | he'
                · exact ⟨Bool.eq_false_iff.2 h3, Bool.eq_false_iff.2 h4,
                         fun hmask => absurd h5 (by simp [hmask])⟩
                · exact hall e he' hin
              · rw [hcount, List.countP_cons]
                have hu : bgUsable env p cfs css irm iro d = false := by
                  simp [bgUsable, h5]
                rw [hu]
                simp
            · rw [if_neg h5] at h
              by_cases h6 : pixelBadFlags env (cfs + d.1) (css + d.2) = true
              · rw [if_pos h6] at h
                exact absurd h (by simp)
              · rw [if_neg h6] at h
                obtain ⟨hall, hcount⟩ := ih _ acc' h
                refine ⟨?_, ?_⟩
                · intro e he hin
                  rcases List.mem_cons.mp he with rfl | he'
                  · exact ⟨Bool.eq_false_iff.2 h3, Bool.eq_false_iff.2 h4,
                           fun _ => Bool.eq_false_iff.2 h6⟩
                  · exact hall e he' hin
                · have hu : bgUsable env p cfs css irm iro d = true := by
                    simp [bgUsable, inBgAnnulus, h1, h2, h5]
                  simp only at hcount
                  rw [hcount, List.countP_cons, hu]
                  simp
                  try omega

/-- If the signal loop completes without a veto, every aperture sample is on
the panel, outside bad regions and carries good flags; and `pk_counts` has
grown by exactly the number of aperture samples. -/
theorem pkLoop_ok (env : IntegEnv) (p : IPanel) (cfs css : ℤ) (irin : ℕ)
    (usem : Bool) (bg_mean : ℚ) :
    ∀ (l : List (ℤ × ℤ)) (acc acc' : PkAcc),
      pkLoop env p cfs css irin usem bg_mean l acc = .ok acc' →
      (∀ d ∈ l, inAperture irin d = true →
        offPanel p cfs css d.1 d.2 = false ∧
        env.badRegion (cfs + d.1) (css + d.2) = false ∧
        pixelBadFlags env (cfs + d.1) (css + d.2) = false) ∧
      acc'.pk_counts = acc.pk_counts + l.countP (inAperture irin) := by
  intro l
  induction l with
  | nil =>
    intro acc acc' h
    simp only [pkLoop] at h
    cases h
    exact ⟨fun d hd => absurd hd (List.not_mem_nil d), by simp⟩
  | cons d rest ih =>
    intro acc acc' h
    simp only [pkLoop] at h
    by_cases h1 : d.1 * d.1 + d.2 * d.2 > (irin : ℤ) * (irin : ℤ)
    · rw [if_pos h1] at h
      obtain ⟨hall, hcount⟩ := ih acc acc' h
      refine ⟨?_, ?_⟩
      · intro e he hin
        rcases List.mem_cons.mp he with rfl | he'
        · exact absurd hin (by simp [inAperture, h1])
        · exact hall e he' hin
      · rw [hcount, List.countP_cons]
        have hu : inAperture irin d = false := by simp [inAperture, h1]
        rw [hu]
        simp
    · rw [if_neg h1] at h
      by_cases h3 : offPanel p cfs css d.1 d.2 = true
      · rw [if_pos h3] at h
        exact absurd h (by simp)
      · rw [if_neg h3] at h
        by_cases h4 : env.badRegion (cfs + d.1) (css + d.2) = true
        · rw [if_pos h4] at h
          exact absurd h (by simp)
        · rw [if_neg h4] at h
          by_cases h6 : pixelBadFlags env (cfs + d.1) (css + d.2) = true
          · rw [if_pos h6] at h
            exact absurd h (by simp)
          · rw [if_neg h6] at h
            obtain ⟨hall, hcount⟩ := ih _ acc' h
            refine ⟨?_, ?_⟩
            · intro e he hin
              rcases List.mem_cons.mp he with rfl | he'
              · exact ⟨Bool.eq_false_iff.2 h3, Bool.eq_false_iff.2 h4,
                       Bool.eq_false_iff.2 h6⟩
              · exact hall e he' hin
            · have hu : inAperture irin d = true := by simp [inAperture, h1]
              simp only at hcount
              rw [hcount, List.countP_cons, hu]
              simp
              try omega

/-- An `Except Unit` result is either the unit error or a success. -/
theorem exceptUnit_cases {A : Type} (e : Except Unit A) :
    e = .error () ∨ ∃ r, e = .ok r := by
  cases e with
  | error u => cases u; exact Or.inl rfl
  | ok r => exact Or.inr ⟨r, rfl⟩

/-- Inversion of a successful `integrate_peak`: the panel is indexable, both
loops completed, both sample counts are nonzero, and the returned variance
is the non-negative `pk_counts*bg_var + aduph*pk_total`. -/
theorem integrate_peak_ok_inv (env : IntegEnv) (p : IPanel) (cfs css : ℤ)
    (aduph : ℚ) (irin irm iro : ℕ) (usem : Bool) (r : IntegResult)
    (h : integrate_peak env (some p) cfs css aduph irin irm iro usem = .ok r) :
    p.noIndex = false ∧
    ∃ ba, bgLoop env p cfs css irm iro usem (offsets iro) ⟨0, 0, 0, false⟩ = .ok ba ∧
      ba.bg_counts ≠ 0 ∧
      ∃ pa, pkLoop env p cfs css irin usem (bgMean ba) (offsets irin)
          ⟨0, 0, 0, 0, ba.saturated⟩ = .ok pa ∧
        pa.pk_counts ≠ 0 ∧
        r.var = (pa.pk_counts : ℚ) * bgVar ba + aduph * pa.pk_total ∧
        0 ≤ r.var ∧ r.pk_counts = pa.pk_counts ∧ r.bg_var = bgVar ba ∧
        r.intensity = pa.pk_total := by
  replace h : integrate_peak_panel env p cfs css aduph irin irm iro usem = .ok r := h
  unfold integrate_peak_panel at h
  by_cases hni : p.noIndex = true
  · rw [if_pos hni] at h
    exact absurd h (by simp)
  · rw [if_neg hni] at h
    cases hbg : bgLoop env p cfs css irm iro usem (offsets iro) ⟨0, 0, 0, false⟩ with
    | error u =>
      rw [hbg] at h
      exact absurd h (by simp)
    | ok ba =>
      rw [hbg] at h
      simp only at h
      by_cases hbc : ba.bg_counts = 0
      · rw [if_pos hbc] at h
        exact absurd h (by simp)
      · rw [if_neg hbc] at h
        cases hpk : pkLoop env p cfs css irin usem (bgMean ba) (offsets irin)
            ⟨0, 0, 0, 0, ba.saturated⟩ with
        | error u =>
          rw [hpk] at h
          exact absurd h (by simp)
        | ok pa =>
          rw [hpk] at h
          simp only at h
          by_cases hpc : pa.pk_counts = 0
          · rw [if_pos hpc] at h
            exact absurd h (by simp)
          · rw [if_neg hpc] at h
            by_cases hv : (pa.pk_counts : ℚ) * bgVar ba + aduph * pa.pk_total < 0
            · rw [if_pos hv] at h
              exact absurd h (by simp)
            · rw [if_neg hv] at h
              injection h with h'
              subst h'
              exact ⟨Bool.eq_false_iff.2 hni, ba, rfl, hbc, pa, hpk, hpc, rfl,
                     not_lt.mp hv, rfl, rfl, rfl⟩

/-- C7: `integrate_peak` vetoes whenever the background annulus or the
signal aperture falls off the panel or touches a masked/bad pixel (a
flag-bad annulus pixel vetoes when it is not excluded by the background
peak mask, which is checked first), whenever the annulus or the aperture
contributes zero usable samples, and whenever the computed variance is
negative (equivalently, success implies `0 ≤ var`); and on success the
reported variance — whose square root is the reported sigma — equals
`pk_counts*bg_var + aduph*pk_total` with `pk_total` the
background-subtracted signal and `aduph` the gain factor. -/
theorem claim_C7 (env : IntegEnv) (p : IPanel) (cfs css : ℤ) (aduph : ℚ)
    (irin irm iro : ℕ) (usem : Bool) :
    ((∃ d ∈ offsets iro, inBgAnnulus irm iro d = true ∧
        (offPanel p cfs css d.1 d.2 = true ∨
         env.badRegion (cfs + d.1) (css + d.2) = true ∨
         (bgMaskHit env p cfs css d.1 d.2 = false ∧
          pixelBadFlags env (cfs + d.1) (css + d.2) = true))) →
      integrate_peak env (some p) cfs css aduph irin irm iro usem = .error ()) ∧
    ((∃ d ∈ offsets irin, inAperture irin d = true ∧
        (offPanel p cfs css d.1 d.2 = true ∨
         env.badRegion (cfs + d.1) (css + d.2) = true ∨
         pixelBadFlags env (cfs + d.1) (css + d.2) = true)) →
      integrate_peak env (some p) cfs css aduph irin irm iro usem = .error ()) ∧
    ((offsets iro).countP (bgUsable env p cfs css irm iro) = 0 →
      integrate_peak env (some p) cfs css aduph irin irm iro usem = .error ()) ∧
    ((offsets irin).countP (inAperture irin) = 0 →
      integrate_peak env (some p) cfs css aduph irin irm iro usem = .error ()) ∧
    (∀ r, integrate_peak env (some p) cfs css aduph irin irm iro usem = .ok r →
      r.var = (r.pk_counts : ℚ) * r.bg_var + aduph * r.intensity ∧ 0 ≤ r.var) := by
  refine ⟨?_, ?_, ?_, ?_, ?_⟩
  · rintro ⟨d, hd, hin, hbad⟩
    rcases exceptUnit_cases (integrate_peak env (some p) cfs css aduph irin irm iro usem)
      with herr | ⟨r, hok⟩
    · exact herr
    · exfalso
      obtain ⟨_, ba, hbg, _, _⟩ := integrate_peak_ok_inv env p cfs css aduph irin irm iro usem r hok
      obtain ⟨hall, _⟩ := (bgLoop_ok env p cfs css irm iro usem _ _ _ hbg)
      obtain ⟨hop, hbr, hfl⟩ := hall d hd hin
      rcases hbad with hb | hb | ⟨hm, hb⟩
      · rw [hop] at hb
        exact Bool.false_ne_true hb
      · rw [hbr] at hb
        exact Bool.false_ne_true hb
      · rw [hfl hm] at hb
        exact Bool.false_ne_true hb
  · rintro ⟨d, hd, hin, hbad⟩
    rcases exceptUnit_cases (integrate_peak env (some p) cfs css aduph irin irm iro usem)
      with herr | ⟨r, hok⟩
    · exact herr
    · exfalso
      obtain ⟨_, ba, hbg, hbc, pa, hpk, _⟩ :=
        integrate_peak_ok_inv env p cfs css aduph irin irm iro usem r hok
      obtain ⟨hall, _⟩ := (pkLoop_ok env p cfs css irin usem (bgMean ba) _ _ _ hpk)
      obtain ⟨hop, hbr, hfl⟩ := hall d hd hin
      rcases hbad with hb | hb | hb
      · rw [hop] at hb
        exact Bool.false_ne_true hb
      · rw [hbr] at hb
        exact Bool.false_ne_true hb
      · rw [hfl] at hb
        exact Bool.false_ne_true hb
  · intro hcnt
    rcases exceptUnit_cases (integrate_peak env (some p) cfs css aduph irin irm iro usem)
      with herr | ⟨r, hok⟩
    · exact herr
    · exfalso
      obtain ⟨_, ba, hbg, hbc, _⟩ :=
        integrate_peak_ok_inv env p cfs css aduph irin irm iro usem r hok
      obtain ⟨_, hcount⟩ := (bgLoop_ok env p cfs css irm iro usem _ _ _ hbg)
      rw [hcnt] at hcount
      exact hbc hcount
  · intro hcnt
    rcases exceptUnit_cases (integrate_peak env (some p) cfs css aduph irin irm iro usem)
      with herr | ⟨r, hok⟩
    · exact herr
    · exfalso
      obtain ⟨_, ba, hbg, hbc, pa, hpk, hpc, _⟩ :=
        integrate_peak_ok_inv env p cfs css aduph irin irm iro usem r hok
      obtain ⟨_, hcount⟩ := (pkLoop_ok env p cfs css irin usem (bgMean ba) _ _ _ hpk)
      rw [hcnt] at hcount
      exact hpc hcount
  · intro r hok
    obtain ⟨_, ba, hbg, hbc, pa, hpk, hpc, hvar, hnn, hcnts, hbv, hint⟩ :=
      integrate_peak_ok_inv env p cfs css aduph irin irm iro usem r hok
    rw [hvar, hcnts, hbv, hint]
    exact ⟨rfl, by rw [← hvar]; exact hnn⟩

/-- Witness for C7: a panel whose whole neighbourhood is a bad region — the
annulus touches a bad pixel at offset `(0,0)`, so the integration is vetoed. -/
theorem claim_C7_witness :
    integrate_peak ⟨fun _ _ => 0, fun _ _ => true, none, 0, 0, none⟩
      (some ⟨0, 10, 0, 10, false, 100⟩) 0 0 0 1 0 1 false = .error () :=
  (claim_C7 ⟨fun _ _ => 0, fun _ _ => true, none, 0, 0, none⟩
      ⟨0, 10, 0, 10, false, 100⟩ 0 0 0 1 0 1 false).1
    ⟨(0, 0), by decide, by decide, Or.inr (Or.inl rfl)⟩

end CrystFEL
